import Mathlib

/-!
A shallow embedding of the cache-consistency core of the
`static_http_cache` crate: the SQLite-backed metadata store and its
rollback-on-drop transaction handle (`src/db.rs`), the revalidation and
fetch logic of `Cache::get` (`src/lib.rs`), and the random content-file
naming of `make_random_file` together with the path-to-UTF-8 conversion
performed by `Cache::record_response`.

Modelling conventions:
  * SQLite rows are an association list keyed by the URL string
    (the `urls` table has a UNIQUE constraint on `url`).
  * The SQLite connection is a `Conn`: the visible table plus an
    optional snapshot recorded by `BEGIN`, restored by `ROLLBACK`.
  * The HTTP client is a function from requests to `Except Error
    Response`, mirroring `reqwest_mock::Client::execute`.
  * Fallible effects whose outcome the Rust code merely propagates
    (`io::copy`, `COMMIT`) are driven by explicit Boolean oracles.
  * `Cache::get` returns, besides its result and the updated state, a
    trace of the externally visible events in program order, so that
    ordering properties (commit strictly after body copy) can be stated.
-/

deriving instance DecidableEq for Except

namespace StaticHttpCache

/-- SQLite storage classes, mirroring `sqlite::Value` as matched in
`db.rs`.  The `Float` storage class is omitted: no code path in this
crate writes or distinguishes floats, and `integer`/`blob` already
provide the non-text, non-null cases the code discriminates on. -/
inductive Value where
  | integer : Int → Value
  | text : String → Value
  | blob : List Nat → Value
  | null : Value
deriving DecidableEq

/-- A URL, split as everything-before-the-fragment plus an optional
fragment, which is all `Cache::get` and `CacheDB` ever distinguish. -/
structure Url where
  base : String
  fragment : Option String
deriving DecidableEq

/-- `url.set_fragment(None)` from the `url` crate. -/
def Url.setFragmentNone (u : Url) : Url :=
  { u with fragment := none }

/-- `url.as_str()`: the textual form used as the database key. -/
def Url.asStr (u : Url) : String :=
  u.base ++ (match u.fragment with
             | some f => "#" ++ f
             | none => "")

/-- The error enum of `src/error.rs` (the variants this core can
produce).  `wrongPathType` carries the offending stored value (the Rust
code carries its `Debug` formatting); `urlNotFound` carries the
normalized URL. -/
inductive Error where
  | io : Error
  | http : Error
  | database : Error
  | wrongPathType : Value → Error
  | urlNotFound : Url → Error
deriving DecidableEq

/-- `db::CacheRecord`: all the information stored about a URL. -/
structure CacheRecord where
  path : String
  last_modified : Option String
  etag : Option String
  expires : Option String
deriving DecidableEq

/-- One row of the `urls` table, with the raw stored values, so that
rows written by other parties may hold values of the wrong storage
class. -/
structure Row where
  url : String
  path : Value
  last_modified : Value
  etag : Value
  expires : Value
deriving DecidableEq

/-- The `urls` table.  The UNIQUE constraint on `url` is maintained by
`upsertRow`. -/
abbrev Table := List Row

/-- `SELECT ... FROM urls WHERE url = ?1`: the first row keyed by `u`. -/
def lookupRow (t : Table) (u : String) : Option Row :=
  List.find? (fun r => r.url = u) t

/-- `INSERT OR REPLACE INTO urls ...`: replace any existing row with the
same key. -/
def upsertRow (t : Table) (r : Row) : Table :=
  r :: List.filter (fun r0 => r0.url ≠ r.url) t

/-- A SQLite connection: the table contents it sees, plus the snapshot
taken by `BEGIN;` that a `ROLLBACK;` restores (`none` when no
transaction is open). -/
structure Conn where
  table : Table
  snapshot : Option Table
deriving DecidableEq

/-- `conn.execute("BEGIN;")`. -/
def Conn.execBegin (c : Conn) : Conn :=
  { c with snapshot := some c.table }

/-- `conn.execute("COMMIT;")` (the success case): the pending changes
become the committed state. -/
def Conn.execCommit (c : Conn) : Conn :=
  { c with snapshot := none }

/-- `conn.execute("ROLLBACK;")`: restore the state recorded at
`BEGIN`. -/
def Conn.execRollback (c : Conn) : Conn :=
  { table := c.snapshot.getD c.table, snapshot := none }

/-- `db::Transaction`: the scoped handle returned by `CacheDB::set`.
Only the `committed` flag lives in the handle; the connection is passed
explicitly where the Rust code holds a borrow. -/
structure Transaction where
  committed : Bool
deriving DecidableEq

/-- `Transaction::commit`: execute `COMMIT;`; on commit failure
(`commitOk = false`) execute `ROLLBACK;` and surface the original
commit error.  The handle is consumed, so its later drop is a no-op. -/
def Transaction.commitRun (commitOk : Bool) (c : Conn) :
    Except Error Unit × Conn :=
  if commitOk then (Except.ok (), c.execCommit)
  else (Except.error Error.database, c.execRollback)

/-- `impl Drop for Transaction`: if the handle is dropped without
commit, execute `ROLLBACK;`; otherwise do nothing. -/
def Transaction.dropRun (t : Transaction) (c : Conn) : Conn :=
  if t.committed then c else c.execRollback

/-- The match arms for the optional columns in `CacheDB::get`: text is
kept, NULL is absent, and any other storage class is logged and treated
as absent. -/
def optColumn : Value → Option String
  | Value.text s => some s
  | Value.null => none
  | _ => none

/-- `CacheDB::get`: strip the fragment, look the URL up, and decode the
row.  A non-text `path` is a hard `WrongPathType` error; weird optional
columns decode to `None`. -/
def CacheDB.get (t : Table) (url : Url) : Except Error CacheRecord :=
  let url := url.setFragmentNone
  match lookupRow t url.asStr with
  | none => Except.error (Error.urlNotFound url)
  | some row =>
    match row.path with
    | Value.text p =>
        Except.ok { path := p,
                    last_modified := optColumn row.last_modified,
                    etag := optColumn row.etag,
                    expires := optColumn row.expires }
    | other => Except.error (Error.wrongPathType other)

/-- Encode an optional field the way `CacheDB::set` binds it:
`record.field.map(Value::String).unwrap_or(Value::Null)`. -/
def toColumn : Option String → Value
  | some s => Value.text s
  | none => Value.null

/-- `CacheDB::set`: strip the fragment, `BEGIN` a transaction, upsert
the row, and return the pending connection state together with the
uncommitted transaction handle. -/
def CacheDB.set (c : Conn) (url : Url) (record : CacheRecord) :
    Conn × Transaction :=
  let url := url.setFragmentNone
  let c1 := c.execBegin
  let row : Row :=
    { url := url.asStr,
      path := Value.text record.path,
      last_modified := toColumn record.last_modified,
      etag := toColumn record.etag,
      expires := toColumn record.expires }
  ({ c1 with table := upsertRow c1.table row }, { committed := false })

/-- An HTTP request as `Cache::get` builds it: always `GET`, with the
two optional precondition headers. -/
structure Request where
  method : String
  url : Url
  if_modified_since : Option String
  if_none_match : Option String
deriving DecidableEq

/-- An HTTP response: status code, the two response headers
`record_response` reads, and the body bytes. -/
structure Response where
  status : Nat
  last_modified : Option String
  etag : Option String
  body : List Nat
deriving DecidableEq

/-- `StatusCode::is_client_error`. -/
def Response.is_client_error (r : Response) : Bool :=
  400 ≤ r.status && r.status ≤ 499

/-- `StatusCode::is_server_error`. -/
def Response.is_server_error (r : Response) : Bool :=
  500 ≤ r.status && r.status ≤ 599

/-- `error_for_status`: fail exactly when the status is 400–599
(`reqwest_mock.rs`). -/
def Response.error_for_status (r : Response) : Except Error Response :=
  if !r.is_client_error && !r.is_server_error then Except.ok r
  else Except.error Error.http

/-- The HTTP client capability: `reqwest_mock::Client::execute`. -/
def Client : Type :=
  Request → Except Error Response

/-- The content store: cache-root-relative path of each file on disk,
with its bytes. -/
abbrev Files := List (String × List Nat)

/-- Look a file up by its path (newest entry shadows older ones). -/
def findFile (fs : Files) (p : String) : Option (List Nat) :=
  (List.find? (fun e => e.1 = p) fs).map (fun e => e.2)

/-- `fs::File::open`: succeeds exactly when the file exists; the opened
handle is represented by the path of the file it reads. -/
def fsOpen (fs : Files) (p : String) : Except Error String :=
  if (findFile fs p).isSome then Except.ok p else Except.error Error.io

/-- The mutable state a `Cache` instance acts on: the metadata
connection and the content directory. -/
structure CacheState where
  conn : Conn
  files : Files
deriving DecidableEq

/-- The externally visible events of one `Cache::get` call, in program
order. -/
inductive Event where
  | sentRequest : Request → Event
  | createdFile : String → Event
  | dbSet : String → CacheRecord → Event
  | copiedBody : Nat → Event
  | commit : Event
  | rollback : Event
  | openedFile : String → Event
deriving DecidableEq

/-- The conditional request built on a cache hit (`lib.rs` lines
319–332): a `GET`, with `If-Modified-Since` exactly when the record has
`last_modified` and `If-None-Match` exactly when it has `etag`. -/
def revalidationRequest (url : Url) (record : CacheRecord) : Request :=
  { method := "GET",
    url := url.setFragmentNone,
    if_modified_since := record.last_modified,
    if_none_match := record.etag }

/-- The unconditional request built on a cache miss (`lib.rs` lines
363–364). -/
def freshRequest (url : Url) : Request :=
  { method := "GET",
    url := url.setFragmentNone,
    if_modified_since := none,
    if_none_match := none }

/-- `io::copy(&mut response, &mut handle)`: driven by the `copyOk`
oracle; on success the whole body was copied and the byte count is
returned. -/
def ioCopy (copyOk : Bool) (body : List Nat) : Except Error Nat :=
  if copyOk then Except.ok body.length else Except.error Error.io

/-- `Cache::record_response`: create the content directory, allocate a
fresh random file under it (its 20-character name supplied here as
`freshName`; see `make_random_file` below for the generator itself),
and open a metadata transaction upserting the new record.  The recorded
path is the cache-root-relative `content/<name>` produced by
`strip_prefix`; `lib.rs` stores no `Expires` value, so that field is
`None`. -/
def record_response (freshName : String) (st : CacheState) (url : Url)
    (resp : Response) : CacheState × String × Transaction :=
  let relPath := "content/" ++ freshName
  let files := (relPath, ([] : List Nat)) :: st.files
  let (conn, txn) := CacheDB.set st.conn url
    { path := relPath,
      last_modified := resp.last_modified,
      etag := resp.etag,
      expires := none }
  ({ conn := conn, files := files }, relPath, txn)

/-- The tail of `Cache::get` from line 369 on: record the response,
copy the body, commit, and open the new file.  On a copy failure the
`?` operator drops the transaction, which rolls it back; on a commit
failure `Transaction::commit` rolls back and surfaces the error.  The
file created for the attempt stays on disk in either failure case
(orphaned but harmless). -/
def fetchFreshTail (freshName : String) (copyOk commitOk : Bool)
    (st : CacheState) (url : Url) (response : Response)
    (tr : List Event) : Except Error String × CacheState × List Event :=
  let (st1, relPath, txn) := record_response freshName st url response
  let rec0 : CacheRecord :=
    { path := relPath,
      last_modified := response.last_modified,
      etag := response.etag,
      expires := none }
  let tr := tr ++ [Event.createdFile relPath,
                   Event.dbSet url.setFragmentNone.asStr rec0]
  match ioCopy copyOk response.body with
  | Except.error e =>
      (Except.error e,
       { conn := txn.dropRun st1.conn, files := st1.files },
       tr ++ [Event.rollback])
  | Except.ok count =>
      let files2 := (relPath, response.body) :: st1.files
      let tr := tr ++ [Event.copiedBody count]
      match Transaction.commitRun commitOk st1.conn with
      | (Except.error e, conn2) =>
          (Except.error e, { conn := conn2, files := files2 },
           tr ++ [Event.rollback])
      | (Except.ok _, conn2) =>
          (fsOpen files2 relPath, { conn := conn2, files := files2 },
           tr ++ [Event.commit, Event.openedFile relPath])

/-- `Cache::get` (`lib.rs` lines 307–384).  Strip the fragment; on a
hit revalidate with the conditional request, serving the existing file
on 304 or on any transport/HTTP-status error; on a miss (or any other
lookup error) fetch unconditionally, failing outright on error; any
fresh response is recorded via `fetchFreshTail`. -/
def Cache.get (client : Client) (freshName : String)
    (copyOk commitOk : Bool) (st : CacheState) (url0 : Url) :
    Except Error String × CacheState × List Event :=
  let url := url0.setFragmentNone
  match CacheDB.get st.conn.table url with
  | Except.ok record =>
      let request := revalidationRequest url record
      let maybe_validation :=
        match client request with
        | Except.ok resp => resp.error_for_status
        | Except.error e => Except.error e
      match maybe_validation with
      | Except.ok new_response =>
          if new_response.status = 304 then
            (fsOpen st.files record.path, st,
             [Event.sentRequest request, Event.openedFile record.path])
          else
            fetchFreshTail freshName copyOk commitOk st url new_response
              [Event.sentRequest request]
      | Except.error _ =>
          (fsOpen st.files record.path, st,
           [Event.sentRequest request, Event.openedFile record.path])
  | Except.error _ =>
      let request := freshRequest url
      match client request with
      | Except.error e =>
          (Except.error e, st, [Event.sentRequest request])
      | Except.ok resp =>
          match resp.error_for_status with
          | Except.error e =>
              (Except.error e, st, [Event.sentRequest request])
          | Except.ok response =>
              fetchFreshTail freshName copyOk commitOk st url response
                [Event.sentRequest request]

/-- `true` iff a `commit` event occurs with no successful body copy
anywhere before it in the trace. -/
def commitBeforeCopy : List Event → Bool
  | [] => false
  | Event.commit :: _ => true
  | Event.copiedBody _ :: _ => false
  | _ :: rest => commitBeforeCopy rest

/-- The byte values of `rand 0.3`'s `gen_ascii_chars` alphabet:
`A`–`Z`, `a`–`z`, `0`–`9`. -/
def asciiAlphabet : List Nat :=
  (String.toList
    "ABCDEFGHIJKLMNOPQRSTUVWXYZabcdefghijklmnopqrstuvwxyz0123456789"
  ).map Char.toNat

/-- One character drawn by `gen_ascii_chars`, as a byte. -/
def asciiByte (i : Fin 62) : Nat :=
  asciiAlphabet.getD i.val 65

/-- The 20-byte file name generated on attempt number `attempt`:
`rng.gen_ascii_chars().take(20)`. -/
def randomName (rng : Nat → Fin 62) (attempt : Nat) : List Nat :=
  (List.range 20).map (fun k => asciiByte (rng (20 * attempt + k)))

/-- `make_random_file`, at the byte level: draw a 20-character random
name; if a file of that name already exists (`create_new` fails with
`AlreadyExists`), retry with a fresh name; return the chosen name.
`fuel` bounds the retries (the Rust loop is unbounded); other I/O
errors, which the Rust code propagates, are outside this model. -/
def make_random_file_loop (rng : Nat → Fin 62)
    (existing : List (List Nat)) : Nat → Nat → Option (List Nat)
  | 0, _ => none
  | fuel + 1, attempt =>
      let name := randomName rng attempt
      if name ∈ existing then
        make_random_file_loop rng existing fuel (attempt + 1)
      else
        some name

/-- The bytes of the cache-root-relative path recorded for a content
file: `strip_prefix` leaves `content/<name>`. -/
def relPathBytes (name : List Nat) : List Nat :=
  (String.toList "content/").map Char.toNat ++ name

/-- `OsStr::to_str`, restricted to the ASCII fragment of UTF-8: this
model only accepts all-ASCII byte strings (real `to_str` also accepts
multibyte UTF-8, so success here implies success there). -/
def osStrToUtf8 (bs : List Nat) : Option String :=
  if ∀ b ∈ bs, b ≤ 127 then
    some (String.mk (bs.map Char.ofNat))
  else none

/-- A value that is neither text nor NULL: the corrupt case for the
optional columns. -/
def weird (v : Value) : Prop :=
  (∀ s, v ≠ Value.text s) ∧ v ≠ Value.null

/-- Example URL used by the concrete witnesses below. -/
def exUrl : Url := { base := "http://example.com/", fragment := none }

/-- Example record as decoded from `exHitTable`. -/
def exRecord : CacheRecord :=
  { path := "content/f1", last_modified := none,
    etag := some "abcd", expires := none }

/-- Example table holding one well-formed row for `exUrl`. -/
def exHitTable : Table :=
  [{ url := "http://example.com/", path := Value.text "content/f1",
     last_modified := Value.null, etag := Value.text "abcd",
     expires := Value.null }]

/-- Example cache state: the row of `exHitTable` plus its content
file. -/
def exHitState : CacheState :=
  { conn := { table := exHitTable, snapshot := none },
    files := [("content/f1", [104, 105])] }

/-- A transport that always fails. -/
def exBrokenClient : Client := fun _ => Except.error Error.http

/-- A transport that answers 304 to the expected conditional request
and fails otherwise. -/
def ex304Client : Client := fun r =>
  if r.if_none_match = some "abcd" then
    Except.ok { status := 304, last_modified := none, etag := none,
                body := [] }
  else Except.error Error.http

/-- A transport that answers 500 to every request. -/
def ex500Client : Client := fun _ =>
  Except.ok { status := 500, last_modified := none, etag := none,
              body := [] }

/-- Example state with an empty metadata store and no files. -/
def exEmptyState : CacheState :=
  { conn := { table := [], snapshot := none }, files := [] }

/-- Example table whose row for `exUrl` has a blob-valued `path`
column. -/
def exCorruptTable : Table :=
  [{ url := "http://example.com/", path := Value.blob [97, 98, 99],
     last_modified := Value.null, etag := Value.null,
     expires := Value.null }]

/-- Example state around `exCorruptTable`, with no content files. -/
def exCorruptState : CacheState :=
  { conn := { table := exCorruptTable, snapshot := none }, files := [] }

/-- A transport that answers 200 with a two-byte body. -/
def ex200Client : Client := fun _ =>
  Except.ok { status := 200, last_modified := none, etag := some "efgh",
              body := [104, 105] }

/-- Stripping the fragment twice is the same as stripping it once. -/
theorem Url.setFragmentNone_idem (u : Url) :
    u.setFragmentNone.setFragmentNone = u.setFragmentNone := rfl

/-- Stripping the fragment first does not change a lookup: `CacheDB::get`
strips it itself. -/
theorem CacheDB.get_strip (t : Table) (u : Url) :
    CacheDB.get t u.setFragmentNone = CacheDB.get t u := rfl

/-- The conditional request depends only on the fragment-free URL. -/
theorem revalidationRequest_strip (u : Url) (r : CacheRecord) :
    revalidationRequest u.setFragmentNone r = revalidationRequest u r := rfl

/-- The unconditional request depends only on the fragment-free URL. -/
theorem freshRequest_strip (u : Url) :
    freshRequest u.setFragmentNone = freshRequest u := rfl

/-- Decoding any non-text column value yields absence. -/
theorem optColumn_eq_none_of_weird (v : Value) (h : weird v) :
    optColumn v = none := by
  cases v with
  | text s => exact absurd rfl (h.1 s)
  | null => rfl
  | integer i => rfl
  | blob bs => rfl

/-- A 400–599 status makes `error_for_status` fail. -/
theorem error_for_status_of_error_status (resp : Response)
    (h1 : 400 ≤ resp.status) (h2 : resp.status ≤ 599) :
    resp.error_for_status = Except.error Error.http := by
  have hcond : (!resp.is_client_error && !resp.is_server_error) = false := by
    by_cases h : resp.status ≤ 499
    · simp [Response.is_client_error, h1, h]
    · have h5 : 500 ≤ resp.status := by omega
      simp [Response.is_client_error, Response.is_server_error, h5, h2]
  simp [Response.error_for_status, hcond]

/-- A 304 status passes `error_for_status` unchanged. -/
theorem error_for_status_of_304 (resp : Response) (h : resp.status = 304) :
    resp.error_for_status = Except.ok resp := by
  simp [Response.error_for_status, Response.is_client_error,
        Response.is_server_error, h]

/-- C2: if the transaction handle returned by `CacheDB::set` is dropped
without `commit`, the connection's table is exactly what it was before
the write began, and every subsequent lookup returns exactly what it
would have returned before. -/
theorem drop_without_commit_rolls_back (c : Conn) (url url' : Url)
    (record : CacheRecord) :
    ((CacheDB.set c url record).2.dropRun (CacheDB.set c url record).1).table
        = c.table ∧
    CacheDB.get ((CacheDB.set c url record).2.dropRun
        (CacheDB.set c url record).1).table url'
      = CacheDB.get c.table url' :=
  ⟨rfl, rfl⟩

/-- C8: the fragment is stripped before key comparison, so lookup,
write, and fetch on `url#a`, `url#b` and `url` all address one record
keyed by the fragment-free URL. -/
theorem fragment_equivalence (t : Table) (c : Conn) (record : CacheRecord)
    (client : Client) (freshName : String) (copyOk commitOk : Bool)
    (st : CacheState) (base : String) (f1 f2 : Option String) :
    CacheDB.get t ⟨base, f1⟩ = CacheDB.get t ⟨base, f2⟩ ∧
    CacheDB.set c ⟨base, f1⟩ record = CacheDB.set c ⟨base, f2⟩ record ∧
    Cache.get client freshName copyOk commitOk st ⟨base, f1⟩
      = Cache.get client freshName copyOk commitOk st ⟨base, f2⟩ :=
  ⟨rfl, rfl, rfl⟩

/-- C9: a stored row whose `path` is text still looks up successfully
even when `last_modified`, `etag` or `expires` hold a non-text,
non-null value; each such field is simply absent in the result. -/
theorem corrupt_optional_fields_tolerated (t : Table) (url : Url)
    (row : Row) (p : String)
    (hrow : lookupRow t url.setFragmentNone.asStr = some row)
    (hpath : row.path = Value.text p) :
    ∃ rec, CacheDB.get t url = Except.ok rec ∧ rec.path = p ∧
      (weird row.last_modified → rec.last_modified = none) ∧
      (weird row.etag → rec.etag = none) ∧
      (weird row.expires → rec.expires = none) := by
  refine ⟨{ path := p, last_modified := optColumn row.last_modified,
            etag := optColumn row.etag, expires := optColumn row.expires },
          ?_, rfl, ?_, ?_, ?_⟩
  · simp [CacheDB.get, hrow, hpath]
  · exact fun h => optColumn_eq_none_of_weird _ h
  · exact fun h => optColumn_eq_none_of_weird _ h
  · exact fun h => optColumn_eq_none_of_weird _ h

/-- C9 witness: a concrete row with blob-valued optional columns. -/
theorem corrupt_optional_fields_tolerated_witness :
    ∃ rec, CacheDB.get
        [{ url := "http://example.com/", path := Value.text "path/to/data",
           last_modified := Value.blob [97], etag := Value.blob [100],
           expires := Value.blob [103] }]
        { base := "http://example.com/", fragment := none }
      = Except.ok rec ∧ rec.path = "path/to/data" ∧
      (weird (Value.blob [97]) → rec.last_modified = none) ∧
      (weird (Value.blob [100]) → rec.etag = none) ∧
      (weird (Value.blob [103]) → rec.expires = none) :=
  corrupt_optional_fields_tolerated _ _
    { url := "http://example.com/", path := Value.text "path/to/data",
      last_modified := Value.blob [97], etag := Value.blob [100],
      expires := Value.blob [103] }
    "path/to/data" (by decide) rfl

/-- Every byte `gen_ascii_chars` can draw is ASCII. -/
theorem asciiByte_le : ∀ i : Fin 62, asciiByte i ≤ 127 := by
  decide

/-- C10: every name `make_random_file` returns has exactly 20 bytes,
all ASCII, so converting the cache-root-relative `content/<name>` path
to a UTF-8 string (the `to_str().unwrap()` in `record_response`) always
succeeds. -/
theorem make_random_file_name_ascii (rng : Nat → Fin 62)
    (existing : List (List Nat)) (fuel attempt : Nat) (name : List Nat)
    (h : make_random_file_loop rng existing fuel attempt = some name) :
    name.length = 20 ∧ (∀ b ∈ name, b ≤ 127) ∧
      (osStrToUtf8 (relPathBytes name)).isSome = true := by
  induction fuel generalizing attempt with
  | zero => simp [make_random_file_loop] at h
  | succ n ih =>
    rw [make_random_file_loop] at h
    by_cases hm : randomName rng attempt ∈ existing
    · rw [if_pos hm] at h
      exact ih _ h
    · rw [if_neg hm] at h
      obtain rfl : randomName rng attempt = name := by
        exact Option.some.inj h
      have hlen : (randomName rng attempt).length = 20 := by
        simp [randomName]
      have hbound : ∀ b ∈ randomName rng attempt, b ≤ 127 := by
        intro b hb
        simp only [randomName, List.mem_map] at hb
        obtain ⟨k, _, rfl⟩ := hb
        exact asciiByte_le _
      refine ⟨hlen, hbound, ?_⟩
      have hall : ∀ b ∈ relPathBytes (randomName rng attempt), b ≤ 127 := by
        intro b hb
        rw [relPathBytes, List.mem_append] at hb
        rcases hb with hb | hb
        · have hpre : ∀ b0 ∈ (String.toList "content/").map Char.toNat,
              b0 ≤ 127 := by decide
          exact hpre b hb
        · exact hbound b hb
      simp only [osStrToUtf8]
      rw [if_pos hall]
      rfl

/-- C10 witness: a concrete generator and an empty directory. -/
theorem make_random_file_name_ascii_witness :
    ((List.range 20).map (fun _ => (65 : Nat))).length = 20 ∧
    (∀ b ∈ (List.range 20).map (fun _ => (65 : Nat)), b ≤ 127) ∧
    (osStrToUtf8 (relPathBytes
        ((List.range 20).map (fun _ => (65 : Nat))))).isSome = true :=
  make_random_file_name_ascii (fun _ => (0 : Fin 62)) [] 1 0 _ (by decide)

/-- C4: on a cache hit whose stored file exists, a transport failure or
an HTTP error status (4xx/5xx) during revalidation makes `Cache::get`
return the previously cached file with its bytes unchanged; the error
is not surfaced. -/
theorem revalidation_failure_falls_back (client : Client)
    (freshName : String) (copyOk commitOk : Bool) (st : CacheState)
    (url0 : Url) (record : CacheRecord) (bytes : List Nat) (e : Error)
    (resp : Response)
    (hrec : CacheDB.get st.conn.table url0 = Except.ok record)
    (hfile : findFile st.files record.path = some bytes)
    (herr : client (revalidationRequest url0 record) = Except.error e ∨
        (client (revalidationRequest url0 record) = Except.ok resp ∧
         400 ≤ resp.status ∧ resp.status ≤ 599)) :
    (Cache.get client freshName copyOk commitOk st url0).1
        = Except.ok record.path ∧
    (Cache.get client freshName copyOk commitOk st url0).2.1 = st ∧
    findFile (Cache.get client freshName copyOk commitOk st url0).2.1.files
        record.path = some bytes := by
  have hrec' : CacheDB.get st.conn.table url0.setFragmentNone
      = Except.ok record := hrec
  have hopen : fsOpen st.files record.path = Except.ok record.path := by
    simp [fsOpen, hfile]
  rcases herr with hfail | ⟨hok, h1, h2⟩
  · have hfail' : client (revalidationRequest url0.setFragmentNone record)
        = Except.error e := by
      rw [revalidationRequest_strip]; exact hfail
    simp [Cache.get, hrec', hfail', hopen, hfile]
  · have hok' : client (revalidationRequest url0.setFragmentNone record)
        = Except.ok resp := by
      rw [revalidationRequest_strip]; exact hok
    have hefs := error_for_status_of_error_status resp h1 h2
    simp [Cache.get, hrec', hok', hefs, hopen, hfile]

/-- C4 witness: a concrete hit state and an always-failing transport. -/
theorem revalidation_failure_falls_back_witness :
    (Cache.get exBrokenClient "aaaaaaaaaaaaaaaaaaaa" true true
        exHitState exUrl).1 = Except.ok exRecord.path ∧
    (Cache.get exBrokenClient "aaaaaaaaaaaaaaaaaaaa" true true
        exHitState exUrl).2.1 = exHitState ∧
    findFile (Cache.get exBrokenClient "aaaaaaaaaaaaaaaaaaaa" true true
        exHitState exUrl).2.1.files exRecord.path = some [104, 105] :=
  revalidation_failure_falls_back exBrokenClient "aaaaaaaaaaaaaaaaaaaa"
    true true exHitState exUrl exRecord [104, 105] Error.http
    { status := 304, last_modified := none, etag := none, body := [] }
    (by decide) (by decide) (Or.inl (by decide))

/-- C5: on a cache hit whose stored file exists, a 304 Not Modified
revalidation response makes `Cache::get` return the stored file and
leave the whole state untouched — no transaction is opened and no
metadata is written (the trace holds only the request and the file
open). -/
theorem not_modified_short_circuit (client : Client) (freshName : String)
    (copyOk commitOk : Bool) (st : CacheState) (url0 : Url)
    (record : CacheRecord) (bytes : List Nat) (resp : Response)
    (hrec : CacheDB.get st.conn.table url0 = Except.ok record)
    (hfile : findFile st.files record.path = some bytes)
    (hresp : client (revalidationRequest url0 record) = Except.ok resp)
    (h304 : resp.status = 304) :
    Cache.get client freshName copyOk commitOk st url0 =
      (Except.ok record.path, st,
       [Event.sentRequest (revalidationRequest url0 record),
        Event.openedFile record.path]) := by
  have hrec' : CacheDB.get st.conn.table url0.setFragmentNone
      = Except.ok record := hrec
  have hresp' : client (revalidationRequest url0.setFragmentNone record)
      = Except.ok resp := by
    rw [revalidationRequest_strip]; exact hresp
  have hefs := error_for_status_of_304 resp h304
  have hopen : fsOpen st.files record.path = Except.ok record.path := by
    simp [fsOpen, hfile]
  simp [Cache.get, hrec', hresp, hresp', hefs, h304, hopen,
        revalidationRequest_strip]

/-- C5 witness: a concrete hit state and a transport answering 304. -/
theorem not_modified_short_circuit_witness :
    Cache.get ex304Client "bbbbbbbbbbbbbbbbbbbb" true true
        exHitState exUrl =
      (Except.ok exRecord.path, exHitState,
       [Event.sentRequest (revalidationRequest exUrl exRecord),
        Event.openedFile exRecord.path]) :=
  not_modified_short_circuit ex304Client "bbbbbbbbbbbbbbbbbbbb" true true
    exHitState exUrl exRecord [104, 105]
    { status := 304, last_modified := none, etag := none, body := [] }
    (by decide) (by decide) (by decide) rfl

/-- C6: on a lookup miss the request issued is an unconditional GET,
and an HTTP error status (400–599) on it fails the whole fetch, leaving
both stores untouched. -/
theorem initial_fetch_http_error_is_fatal (client : Client)
    (freshName : String) (copyOk commitOk : Bool) (st : CacheState)
    (url0 : Url) (e : Error) (resp : Response)
    (hmiss : CacheDB.get st.conn.table url0 = Except.error e)
    (hresp : client (freshRequest url0) = Except.ok resp)
    (h1 : 400 ≤ resp.status) (h2 : resp.status ≤ 599) :
    Cache.get client freshName copyOk commitOk st url0 =
      (Except.error Error.http, st,
       [Event.sentRequest (freshRequest url0)]) ∧
    (freshRequest url0).method = "GET" ∧
    (freshRequest url0).if_modified_since = none ∧
    (freshRequest url0).if_none_match = none := by
  have hmiss' : CacheDB.get st.conn.table url0.setFragmentNone
      = Except.error e := hmiss
  have hefs := error_for_status_of_error_status resp h1 h2
  refine ⟨?_, rfl, rfl, rfl⟩
  simp [Cache.get, hmiss', hresp, hefs, freshRequest_strip]

/-- C6 witness: an empty cache and a transport answering 500. -/
theorem initial_fetch_http_error_is_fatal_witness :
    Cache.get ex500Client "cccccccccccccccccccc" true true
        exEmptyState exUrl =
      (Except.error Error.http, exEmptyState,
       [Event.sentRequest (freshRequest exUrl)]) ∧
    (freshRequest exUrl).method = "GET" ∧
    (freshRequest exUrl).if_modified_since = none ∧
    (freshRequest exUrl).if_none_match = none :=
  initial_fetch_http_error_is_fatal ex500Client "cccccccccccccccccccc"
    true true exEmptyState exUrl (Error.urlNotFound exUrl)
    { status := 500, last_modified := none, etag := none, body := [] }
    (by decide) (by decide) (by decide) (by decide)

/-- The fetch-fresh tail only appends events: the first event of the
trace it was handed stays first. -/
theorem fetchFreshTail_head (freshName : String) (copyOk commitOk : Bool)
    (st : CacheState) (url : Url) (resp : Response) (a : Event)
    (tr : List Event) :
    (fetchFreshTail freshName copyOk commitOk st url resp
        (a :: tr)).2.2.head? = some a := by
  cases copyOk <;> cases commitOk <;>
    simp [fetchFreshTail, ioCopy, Transaction.commitRun, record_response]

/-- C7: on a cache hit the request sent first is a GET whose
`If-Modified-Since` header is exactly the record's `last_modified` and
whose `If-None-Match` header is exactly the record's `etag`; absent
fields yield absent headers. -/
theorem revalidation_request_headers (client : Client)
    (freshName : String) (copyOk commitOk : Bool) (st : CacheState)
    (url0 : Url) (record : CacheRecord)
    (hrec : CacheDB.get st.conn.table url0 = Except.ok record) :
    (Cache.get client freshName copyOk commitOk st url0).2.2.head?
        = some (Event.sentRequest (revalidationRequest url0 record)) ∧
    (revalidationRequest url0 record).method = "GET" ∧
    (revalidationRequest url0 record).if_modified_since
        = record.last_modified ∧
    (revalidationRequest url0 record).if_none_match = record.etag := by
  have hrec' : CacheDB.get st.conn.table url0.setFragmentNone
      = Except.ok record := hrec
  refine ⟨?_, rfl, rfl, rfl⟩
  simp only [Cache.get, hrec', revalidationRequest_strip]
  cases hc : client (revalidationRequest url0 record) with
  | error e => simp
  | ok resp =>
    cases hefs : resp.error_for_status with
    | error e => simp [hefs]
    | ok resp2 =>
      by_cases h304 : resp2.status = 304
      · simp [hefs, h304]
      · simp [hefs, h304, fetchFreshTail_head]

/-- C7 witness: a concrete hit whose record has an etag but no
last-modified value. -/
theorem revalidation_request_headers_witness :
    (Cache.get exBrokenClient "dddddddddddddddddddd" true true
        exHitState exUrl).2.2.head?
        = some (Event.sentRequest (revalidationRequest exUrl exRecord)) ∧
    (revalidationRequest exUrl exRecord).method = "GET" ∧
    (revalidationRequest exUrl exRecord).if_modified_since
        = exRecord.last_modified ∧
    (revalidationRequest exUrl exRecord).if_none_match = exRecord.etag :=
  revalidation_request_headers exBrokenClient "dddddddddddddddddddd"
    true true exHitState exUrl exRecord (by decide)

/-- In every trace the fetch-fresh tail can produce, no commit event
precedes the body-copy event. -/
theorem fetchFreshTail_commitBeforeCopy (freshName : String)
    (copyOk commitOk : Bool) (st : CacheState) (url : Url)
    (resp : Response) (r : Request) :
    commitBeforeCopy (fetchFreshTail freshName copyOk commitOk st url
        resp [Event.sentRequest r]).2.2 = false := by
  cases copyOk <;> cases commitOk <;>
    simp [fetchFreshTail, ioCopy, Transaction.commitRun, record_response,
          commitBeforeCopy]

/-- When the body copy fails, the fetch-fresh tail never commits and
the dropped transaction rolls the table back to what it was. -/
theorem fetchFreshTail_copy_fails (freshName : String) (commitOk : Bool)
    (st : CacheState) (url : Url) (resp : Response) (r : Request) :
    Event.commit ∉ (fetchFreshTail freshName false commitOk st url
        resp [Event.sentRequest r]).2.2 ∧
    (fetchFreshTail freshName false commitOk st url resp
        [Event.sentRequest r]).2.1.conn.table = st.conn.table := by
  cases commitOk <;>
    simp [fetchFreshTail, ioCopy, record_response, CacheDB.set,
          Transaction.dropRun, Conn.execRollback, Conn.execBegin]

/-- C1: the metadata transaction commits only after the full body copy
(no trace puts `commit` before `copiedBody`), and when the body copy
fails no commit ever happens and the metadata table is left exactly as
it was. -/
theorem commit_only_after_full_copy (client : Client)
    (freshName : String) (copyOk commitOk : Bool) (st : CacheState)
    (url0 : Url) :
    commitBeforeCopy
        (Cache.get client freshName copyOk commitOk st url0).2.2
      = false ∧
    Event.commit ∉
        (Cache.get client freshName false commitOk st url0).2.2 ∧
    (Cache.get client freshName false commitOk st url0).2.1.conn.table
      = st.conn.table := by
  refine ⟨?_, ?_, ?_⟩
  · simp only [Cache.get]
    cases hg : CacheDB.get st.conn.table url0.setFragmentNone with
    | error e =>
      cases hc : client (freshRequest url0.setFragmentNone) with
      | error e2 => simp [hc, commitBeforeCopy]
      | ok resp =>
        cases hefs : resp.error_for_status with
        | error e2 => simp [hc, hefs, commitBeforeCopy]
        | ok resp2 => simp [hc, hefs, fetchFreshTail_commitBeforeCopy]
    | ok record =>
      cases hc : client (revalidationRequest url0.setFragmentNone record)
          with
      | error e2 => simp [hc, commitBeforeCopy]
      | ok resp =>
        cases hefs : resp.error_for_status with
        | error e2 => simp [hc, hefs, commitBeforeCopy]
        | ok resp2 =>
          by_cases h304 : resp2.status = 304
          · simp [hc, hefs, h304, commitBeforeCopy]
          · simp [hc, hefs, h304, fetchFreshTail_commitBeforeCopy]
  · simp only [Cache.get]
    cases hg : CacheDB.get st.conn.table url0.setFragmentNone with
    | error e =>
      cases hc : client (freshRequest url0.setFragmentNone) with
      | error e2 => simp [hc]
      | ok resp =>
        cases hefs : resp.error_for_status with
        | error e2 => simp [hc, hefs]
        | ok resp2 =>
          simp only [hc, hefs]
          exact (fetchFreshTail_copy_fails freshName commitOk st
            url0.setFragmentNone resp2 _).1
    | ok record =>
      cases hc : client (revalidationRequest url0.setFragmentNone record)
          with
      | error e2 => simp [hc]
      | ok resp =>
        cases hefs : resp.error_for_status with
        | error e2 => simp [hc, hefs]
        | ok resp2 =>
          by_cases h304 : resp2.status = 304
          · simp [hc, hefs, h304]
          · simp only [hc, hefs, if_neg h304]
            exact (fetchFreshTail_copy_fails freshName commitOk st
              url0.setFragmentNone resp2 _).1
  · simp only [Cache.get]
    cases hg : CacheDB.get st.conn.table url0.setFragmentNone with
    | error e =>
      cases hc : client (freshRequest url0.setFragmentNone) with
      | error e2 => simp [hc]
      | ok resp =>
        cases hefs : resp.error_for_status with
        | error e2 => simp [hc, hefs]
        | ok resp2 =>
          simp only [hc, hefs]
          exact (fetchFreshTail_copy_fails freshName commitOk st
            url0.setFragmentNone resp2 _).2
    | ok record =>
      cases hc : client (revalidationRequest url0.setFragmentNone record)
          with
      | error e2 => simp [hc]
      | ok resp =>
        cases hefs : resp.error_for_status with
        | error e2 => simp [hc, hefs]
        | ok resp2 =>
          by_cases h304 : resp2.status = 304
          · simp [hc, hefs, h304]
          · simp only [hc, hefs, if_neg h304]
            exact (fetchFreshTail_copy_fails freshName commitOk st
              url0.setFragmentNone resp2 _).2

/-- C3 counterexample: with a blob-valued `path` column, `CacheDB::get`
does fail with `WrongPathType`, but `Cache::get` does not fail at all:
its `Err(_)` arm treats the corrupt record as a miss, refetches, and
returns the freshly downloaded file. -/
theorem corrupt_path_fetch_succeeds :
    CacheDB.get exCorruptState.conn.table exUrl
      = Except.error (Error.wrongPathType (Value.blob [97, 98, 99])) ∧
    (Cache.get ex200Client "eeeeeeeeeeeeeeeeeeee" true true
        exCorruptState exUrl).1
      = Except.ok "content/eeeeeeeeeeeeeeeeeeee" := by
  decide

/-- C3 (amended): a row whose `path` column holds a non-text value
makes the lookup `CacheDB::get` fail with `WrongPathType`, while
`Cache::get` treats that lookup error like a miss and issues an
unconditional GET (refetching) rather than failing. -/
theorem corrupt_path_lookup_fails_fetch_refetches (client : Client)
    (freshName : String) (copyOk commitOk : Bool) (st : CacheState)
    (url0 : Url) (row : Row)
    (hrow : lookupRow st.conn.table url0.setFragmentNone.asStr = some row)
    (hpath : ∀ s, row.path ≠ Value.text s) :
    CacheDB.get st.conn.table url0
      = Except.error (Error.wrongPathType row.path) ∧
    (Cache.get client freshName copyOk commitOk st url0).2.2.head?
      = some (Event.sentRequest (freshRequest url0)) := by
  have hget : CacheDB.get st.conn.table url0.setFragmentNone
      = Except.error (Error.wrongPathType row.path) := by
    cases hv : row.path with
    | text s => exact absurd hv (hpath s)
    | integer i =>
        simp [CacheDB.get, Url.setFragmentNone_idem, hrow, hv]
    | blob bs =>
        simp [CacheDB.get, Url.setFragmentNone_idem, hrow, hv]
    | null =>
        simp [CacheDB.get, Url.setFragmentNone_idem, hrow, hv]
  refine ⟨hget, ?_⟩
  simp only [Cache.get, hget, freshRequest_strip]
  cases hc : client (freshRequest url0) with
  | error e => simp [hc]
  | ok resp =>
    cases hefs : resp.error_for_status with
    | error e => simp [hc, hefs]
    | ok resp2 => simp [hc, hefs, fetchFreshTail_head]

/-- C3 (amended) witness: the concrete corrupt row and 200-answering
transport. -/
theorem corrupt_path_lookup_fails_fetch_refetches_witness :
    CacheDB.get exCorruptState.conn.table exUrl
      = Except.error (Error.wrongPathType (Value.blob [97, 98, 99])) ∧
    (Cache.get ex200Client "ffffffffffffffffffff" true true
        exCorruptState exUrl).2.2.head?
      = some (Event.sentRequest (freshRequest exUrl)) :=
  corrupt_path_lookup_fails_fetch_refetches ex200Client
    "ffffffffffffffffffff" true true exCorruptState exUrl
    { url := "http://example.com/", path := Value.blob [97, 98, 99],
      last_modified := Value.null, etag := Value.null,
      expires := Value.null }
    (by decide) (fun s h => Value.noConfusion h)

end StaticHttpCache
